import Mathlib

/-!
Shallow embedding of the Tic-Tac-Toe application (src/src/App.tsx) and its
Supabase room schema (src/supabase/migrations/20250124094337_summer_castle.sql).

JavaScript conventions modelled explicitly:
* a board cell is `'X' | 'O' | null`, but writing past the end of an array
  creates holes that read back as `undefined`; `Cell.undef` stands for both
  a hole and an out-of-range read (`board[i]` with `i ≥ length`),
* truthiness: `null`, `undefined` and `''` are falsy; non-empty strings truthy,
* `Array.prototype.every` skips holes, so `square !== null` is vacuously
  satisfied at a hole,
* `===` is decidable equality on these values (`null !== undefined`).
-/

namespace TTT

/-- `type Player = 'X' | 'O'` from App.tsx. -/
inductive Player
  | X
  | O
deriving DecidableEq, Repr

/-- `currentPlayer === 'X' ? 'O' : 'X'` (App.tsx line 220). -/
def Player.flip : Player → Player
  | .X => .O
  | .O => .X

/-- One board cell: `null`, a JS hole / out-of-range read (`undefined`),
or a placed mark. -/
inductive Cell
  | null
  | undef
  | mark (p : Player)
deriving DecidableEq, Repr

/-- JS truthiness of a cell: only an actual mark (a non-empty string) is truthy. -/
def Cell.truthy : Cell → Bool
  | .mark _ => true
  | _ => false

/-- `type Board = (Player | null)[]` from App.tsx. -/
abbrev Board := List Cell

/-- `board[i]`: reads past the end of a JS array yield `undefined`. -/
def cellAt (b : Board) (i : Nat) : Cell :=
  b.getD i Cell.undef

/-- `newBoard[i] = v` on a JS array: in-range writes replace the element,
out-of-range writes extend the array, creating holes (`undefined`) in between. -/
def setCell (b : Board) (i : Nat) (v : Cell) : Board :=
  if i < b.length then b.set i v
  else b ++ List.replicate (i - b.length) Cell.undef ++ [v]

/-- The 8 winning lines of App.tsx `winningCombinations` (lines 53-57), in
source order: 3 rows, 3 columns, 2 diagonals. -/
def winningCombinations : List (Nat × Nat × Nat) :=
  [(0, 1, 2), (3, 4, 5), (6, 7, 8),
   (0, 3, 6), (1, 4, 7), (2, 5, 8),
   (0, 4, 8), (2, 4, 6)]

/-- `winner: Player | 'Draw'` — the non-null values `checkWinner` can return. -/
inductive WinRes
  | mark (p : Player)
  | draw
deriving DecidableEq, Repr

/-- The body of the `for` loop in `checkWinner` (App.tsx line 160):
`squares[a] && squares[a] === squares[b] && squares[a] === squares[c]`
yields `squares[a]` exactly when the line holds three identical marks. -/
def lineWin (sq : Board) (l : Nat × Nat × Nat) : Option Player :=
  match cellAt sq l.1 with
  | Cell.mark p =>
      if cellAt sq l.2.1 = Cell.mark p ∧ cellAt sq l.2.2 = Cell.mark p then some p
      else none
  | _ => none

/-- The `for (const [a, b, c] of winningCombinations)` loop with early
`return squares[a]` (App.tsx lines 159-163): first winning line in list order. -/
def firstWin (sq : Board) : List (Nat × Nat × Nat) → Option Player
  | [] => none
  | l :: rest =>
      match lineWin sq l with
      | some p => some p
      | none => firstWin sq rest

/-- `squares.every(square => square !== null)` (App.tsx line 164).
`Array.prototype.every` skips holes, and `undefined !== null` anyway, so only
an explicit `null` falsifies the predicate. -/
def everyNotNull (sq : Board) : Bool :=
  sq.all fun c => decide (c ≠ Cell.null)

/-- `checkWinner` (App.tsx lines 158-168). -/
def checkWinner (sq : Board) : Option WinRes :=
  match firstWin sq winningCombinations with
  | some p => some (WinRes.mark p)
  | none => if everyNotNull sq then some WinRes.draw else none

/-- `interface PlayerInfo` of App.tsx (the fixed `symbol` field is the map key
and is omitted). -/
structure PlayerInfo where
  name : String
  score : Nat
deriving DecidableEq, Repr

/-- One `GameHistory` entry of App.tsx (the wall-clock `timestamp` is not
modelled). -/
structure GameHistoryEntry where
  board : Board
  winner : Option WinRes
deriving DecidableEq, Repr

/-- The React state of `App` that the game logic reads and writes:
`board`, `currentPlayer`, `winner`, `players`, `gameHistory`, `moveCount`. -/
structure AppState where
  board : Board
  currentPlayer : Player
  winner : Option WinRes
  playerX : PlayerInfo
  playerO : PlayerInfo
  gameHistory : List GameHistoryEntry
  moveCount : Nat
deriving DecidableEq, Repr

/-- The `useState` initial values of App.tsx (lines 32-44). -/
def initState : AppState :=
  { board := List.replicate 9 Cell.null
    currentPlayer := Player.X
    winner := none
    playerX := { name := "Player 1", score := 0 }
    playerO := { name := "Player 2", score := 0 }
    gameHistory := []
    moveCount := 0 }

/-- `interface OnlineGameState` of App.tsx. -/
structure OnlineGameState where
  roomCode : String
  isHost : Bool
  connected : Bool
  playerId : Option String
  errorMessage : Option String
deriving DecidableEq, Repr

/-- `type GameMode = 'local' | 'online' | null` of App.tsx. -/
inductive GameMode
  | localMode
  | onlineMode
  | nullMode
deriving DecidableEq, Repr

/-- A row of the `game_rooms` table (migration SQL lines 22-33); the
timestamps are not modelled. `status` takes the values
`"waiting" | "playing" | "finished"`; `current_player` and `winner` hold the
values the client writes. -/
structure RoomRow where
  code : String
  host_id : String
  guest_id : Option String
  board : Board
  current_player : Player
  winner : Option WinRes
  status : String
deriving DecidableEq, Repr

/-- The supabase update of App.tsx lines 210-217: after a game-ending move,
`update({ board, winner, status: 'finished' }).eq('code', roomCode)`.
Only the row whose `code` matches is touched, and only the three listed
fields are written. -/
def pushEnd (roomCode : String) (nb : Board) (w : WinRes) (r : RoomRow) : RoomRow :=
  if r.code = roomCode then { r with board := nb, winner := some w, status := "finished" }
  else r

/-- The supabase update of App.tsx lines 224-230: after a non-ending move,
`update({ board, current_player: nextPlayer }).eq('code', roomCode)`. -/
def pushCont (roomCode : String) (nb : Board) (next : Player) (r : RoomRow) : RoomRow :=
  if r.code = roomCode then { r with board := nb, current_player := next }
  else r

/-- The supabase update of App.tsx lines 242-250 (`resetGame`):
`update({ board: Array(9).fill(null), current_player: 'X', winner: null,
status: 'playing' }).eq('code', roomCode)`. -/
def pushReset (roomCode : String) (r : RoomRow) : RoomRow :=
  if r.code = roomCode then
    { r with board := List.replicate 9 Cell.null
             current_player := Player.X
             winner := none
             status := "playing" }
  else r

/-- The score update of App.tsx lines 189-195: increment the winner's score. -/
def bumpScore (s : AppState) (p : Player) : AppState :=
  match p with
  | Player.X => { s with playerX := { s.playerX with score := s.playerX.score + 1 } }
  | Player.O => { s with playerO := { s.playerO with score := s.playerO.score + 1 } }

/-- `onlineGame?.roomCode` as used in the push guards: `undefined` (no session)
and the empty string are both falsy. -/
def ogRoomCode (og : Option OnlineGameState) : String :=
  (og.map OnlineGameState.roomCode).getD ""

/-- `handleClick` (App.tsx lines 170-233), with the React `setX` calls turned
into explicit state passing and the supabase update applied to the given row.
Guard order follows the source:
1. `if (board[index] || winner) return`,
2. `if (gameMode === 'online' && !onlineGame?.connected) return`,
3. `if (gameMode === 'online' && currentPlayer !== (onlineGame?.isHost ? 'X' : 'O')) return`;
then the move is applied, `moveCount` incremented, and on a non-null
`checkWinner` result the winner is recorded, the score bumped (unless draw),
the history appended, and `{board, winner, status: 'finished'}` pushed;
otherwise the turn flips and `{board, current_player}` is pushed.
Sound effects and timestamps are not modelled. -/
def handleClick (mode : GameMode) (og : Option OnlineGameState)
    (s : AppState) (room : RoomRow) (i : Nat) : AppState × RoomRow :=
  if (cellAt s.board i).truthy || s.winner.isSome then (s, room)
  else if mode = GameMode.onlineMode ∧ ¬((og.map OnlineGameState.connected).getD false) then
    (s, room)
  else if mode = GameMode.onlineMode ∧
      s.currentPlayer ≠ (if (og.map OnlineGameState.isHost).getD false then Player.X else Player.O) then
    (s, room)
  else
    let newBoard := setCell s.board i (Cell.mark s.currentPlayer)
    let s1 := { s with board := newBoard, moveCount := s.moveCount + 1 }
    match checkWinner newBoard with
    | some w =>
        let s2 :=
          match w with
          | WinRes.mark p => bumpScore { s1 with winner := some w } p
          | WinRes.draw => { s1 with winner := some w }
        let s3 := { s2 with gameHistory := s2.gameHistory ++ [⟨newBoard, some w⟩] }
        let room' :=
          if mode = GameMode.onlineMode ∧ ogRoomCode og ≠ "" then
            pushEnd (ogRoomCode og) newBoard w room
          else room
        (s3, room')
    | none =>
        let next := s.currentPlayer.flip
        let s2 := { s1 with currentPlayer := next }
        let room' :=
          if mode = GameMode.onlineMode ∧ ogRoomCode og ≠ "" then
            pushCont (ogRoomCode og) newBoard next room
          else room
        (s2, room')

/-- `resetGame` (App.tsx lines 235-252): clears board, turn, winner and move
count locally; in online mode additionally pushes the cleared state with
`status: 'playing'` to the matching row. -/
def resetGame (mode : GameMode) (og : Option OnlineGameState)
    (s : AppState) (room : RoomRow) : AppState × RoomRow :=
  let s' := { s with board := List.replicate 9 Cell.null
                     currentPlayer := Player.X
                     winner := none
                     moveCount := 0 }
  let room' :=
    if mode = GameMode.onlineMode ∧ ogRoomCode og ≠ "" then pushReset (ogRoomCode og) room
    else room
  (s', room')

/-- The row inserted by `createRoom` (App.tsx lines 89-100): the insert lists
`code`, `host_id`, `board` (the current local board) and `current_player`
(the current local turn); `guest_id`, `winner` and `status` take the schema
defaults `NULL`, `NULL` and `'waiting'` (migration SQL lines 26-32). -/
def createRow (s : AppState) (code hostId : String) : RoomRow :=
  { code := code
    host_id := hostId
    guest_id := none
    board := s.board
    current_player := s.currentPlayer
    winner := none
    status := "waiting" }

/-- `String.prototype.toUpperCase` restricted to one ASCII character, which is
all the code generator and the room-code comparison ever feed it. -/
def upperChar (c : Char) : Char :=
  if 'a' ≤ c ∧ c ≤ 'z' then Char.ofNat (c.toNat - 32) else c

/-- `String.prototype.toUpperCase` on an ASCII string. -/
def toUpperCase (s : String) : String :=
  String.mk (s.data.map upperChar)

/-- The default URL alphabet of the `nanoid` package (its `urlAlphabet`
constant, nanoid >= 3 — the named import `import { nanoid } from 'nanoid'`
on App.tsx line 5 requires nanoid 3+): 64 characters, `A-Za-z0-9` plus `_`
and `-`. -/
def urlAlphabet : List Char :=
  "useandom-26T198340PX75pxJACKVERYMINDBUSHWOLF_GQZbfghjklqvwyzrict".data

/-- `nanoid(size)` from the `nanoid` package (>= 3): draw `size` random bytes
and map each through `urlAlphabet[byte & 63]`, consuming the byte array from
its last element to its first. The random bytes are the explicit input
here. -/
def nanoidOfBytes (bytes : List Nat) : String :=
  String.mk (bytes.reverse.map fun b => urlAlphabet.getD (b % 64) 'u')

/-- `nanoid(6).toUpperCase()` (App.tsx line 88): the room code generated by
`createRoom`, as a function of the 6 random bytes nanoid draws. -/
def generatedRoomCode (bytes : List Nat) : String :=
  toUpperCase (nanoidOfBytes bytes)

/-- The filter of the `joinRoom` update (App.tsx lines 133-135):
`.eq('code', joinCode.toUpperCase()).eq('status', 'waiting').is('guest_id', null)`. -/
def joinFilter (enteredUpper : String) (r : RoomRow) : Bool :=
  decide (r.code = enteredUpper) && decide (r.status = "waiting") &&
    decide (r.guest_id = none)

/-- The field update of `joinRoom` (App.tsx line 132):
`update({ guest_id: auth.user.id, status: 'playing' })`. -/
def joinUpdateRow (gid : String) (r : RoomRow) : RoomRow :=
  { r with guest_id := some gid, status := "playing" }

/-- The conditional update issued by `joinRoom` against the whole
`game_rooms` table, restricted to its WHERE clause: every row passing
`joinFilter` is updated, and the list of updated rows is what `.select()`
returns (`.single()` then demands exactly one). Returns (new table, selected
rows). The migration's row-level-security UPDATE policy is modelled
separately (`updatePolicy`, `joinRoomStoreRls`); this policy-free version is
what the case-insensitivity comparison needs, since both of its sides face
the same policy. -/
def joinRoomStore (store : List RoomRow) (entered gid : String) :
    List RoomRow × List RoomRow :=
  (store.map fun r =>
     if joinFilter (toUpperCase entered) r then joinUpdateRow gid r else r,
   (store.filter (joinFilter (toUpperCase entered))).map (joinUpdateRow gid))

/-- A joiner's `OnlineGameState` on success (App.tsx lines 143-149). -/
def joinedOG (enteredUpper gid : String) : OnlineGameState :=
  { roomCode := enteredUpper
    isHost := false
    connected := true
    playerId := some gid
    errorMessage := none }

/-- A joiner's `OnlineGameState` after a failed join (App.tsx lines 150-155):
the `catch` sets only `errorMessage` on the previous session state
(`setOnlineGame(prev => ({ ...prev!, errorMessage: ... }))`); spreading a
null `prev` leaves the remaining fields undefined, modelled by the defaults
of the base record. -/
def failedOG (og : Option OnlineGameState) : OnlineGameState :=
  { og.getD { roomCode := "", isHost := false, connected := false
              playerId := none, errorMessage := none }
    with errorMessage := some "Failed to join room" }

/-- `joinRoom` (App.tsx lines 119-156): no-op on an empty code
(`if (!joinCode) return`); otherwise run the conditional update; `.single()`
succeeds exactly when one row was updated, in which case the session
connects; on any failure only `errorMessage` is surfaced. The
temporary-identity signup is assumed to succeed and `gid` is the fresh
identity. -/
def joinRoom (store : List RoomRow) (entered gid : String)
    (og : Option OnlineGameState) : List RoomRow × Option OnlineGameState :=
  if entered = "" then (store, og)
  else
    match (joinRoomStore store entered gid).2 with
    | [_] => ((joinRoomStore store entered gid).1,
        some (joinedOG (toUpperCase entered) gid))
    | _ => ((joinRoomStore store entered gid).1, some (failedOG og))

/-- The UPDATE row-level-security policy of the migration (SQL lines 56-61):
with RLS enabled, a caller `uid` may update a row only when
`auth.uid() = host_id OR auth.uid() = guest_id` holds for it. (The policy's
`WITH CHECK` clause is the same condition on the new row; a join writes
`guest_id := uid`, so for the join update the new row always satisfies it
and only the `USING` side, modelled here, can reject.) -/
def updatePolicy (uid : String) (r : RoomRow) : Bool :=
  decide (r.host_id = uid) || decide (r.guest_id = some uid)

/-- The join update as the database really executes it: a row is updated only
when it passes both the WHERE filter (`joinFilter`) and the UPDATE
row-level-security policy for the calling user `uid`. -/
def joinRoomStoreRls (store : List RoomRow) (entered uid : String) :
    List RoomRow × List RoomRow :=
  (store.map fun r =>
     if joinFilter (toUpperCase entered) r && updatePolicy uid r
       then joinUpdateRow uid r else r,
   (store.filter fun r =>
      joinFilter (toUpperCase entered) r && updatePolicy uid r).map
     (joinUpdateRow uid))

/-- `joinRoom` (App.tsx lines 119-156) with the database's row-level
security in effect: same client logic as `joinRoom`, but the update commits
only on rows the calling user `uid` is allowed to touch. -/
def joinRoomRls (store : List RoomRow) (entered uid : String)
    (og : Option OnlineGameState) : List RoomRow × Option OnlineGameState :=
  if entered = "" then (store, og)
  else
    match (joinRoomStoreRls store entered uid).2 with
    | [_] => ((joinRoomStoreRls store entered uid).1,
        some (joinedOG (toUpperCase entered) uid))
    | _ => ((joinRoomStoreRls store entered uid).1, some (failedOG og))

/-- Spec-side predicate (§4.1 `computeOutcome`): the given winning line
"holds three equal non-empty marks", all equal to `m`. -/
def specLineFilledBy (b : Board) (l : Nat × Nat × Nat) (m : Player) : Bool :=
  decide (cellAt b l.1 = Cell.mark m) && decide (cellAt b l.2.1 = Cell.mark m) &&
    decide (cellAt b l.2.2 = Cell.mark m)

/-- Spec-side predicate: some one of the 8 winning lines is filled by `m`. -/
def specWins (b : Board) (m : Player) : Bool :=
  winningCombinations.any fun l => specLineFilledBy b l m

/-- Spec-side predicate: "all 9 cells are occupied" — every cell holds a mark. -/
def specOccupied (b : Board) : Bool :=
  b.all Cell.truthy

/-- A board with no JS holes/`undefined` cells, i.e. an actual
`(Player | null)[]` value. -/
def noUndef (b : Board) : Bool :=
  b.all fun c => decide (c ≠ Cell.undef)

theorem lineWin_eq_some {b : Board} {l : Nat × Nat × Nat} {p : Player} :
    lineWin b l = some p ↔ specLineFilledBy b l p = true := by
  unfold lineWin specLineFilledBy
  cases h : cellAt b l.1 with
  | null => simp [h]
  | undef => simp [h]
  | mark q =>
      by_cases h2 : cellAt b l.2.1 = Cell.mark q ∧ cellAt b l.2.2 = Cell.mark q
      · rcases h2 with ⟨h21, h22⟩
        simp only [h, h21, h22, and_self, if_true]
        constructor
        · intro hq
          cases hq
          simp
        · intro hq
          simp only [Bool.and_eq_true, decide_eq_true_eq, Cell.mark.injEq] at hq
          exact congrArg some hq.1.1
      · simp only [h, h2, if_false]
        constructor
        · intro hq
          cases hq
        · intro hq
          simp only [Bool.and_eq_true, decide_eq_true_eq, Cell.mark.injEq] at hq
          exact absurd ⟨hq.1.2 ▸ hq.1.1 ▸ rfl, hq.2 ▸ hq.1.1 ▸ rfl⟩ h2

theorem specWins_iff {b : Board} {m : Player} :
    specWins b m = true ↔ ∃ l ∈ winningCombinations, lineWin b l = some m := by
  unfold specWins
  rw [List.any_eq_true]
  constructor
  · rintro ⟨l, hl, hf⟩
    exact ⟨l, hl, lineWin_eq_some.mpr hf⟩
  · rintro ⟨l, hl, hf⟩
    exact ⟨l, hl, lineWin_eq_some.mp hf⟩

theorem firstWin_eq_none {b : Board} {L : List (Nat × Nat × Nat)}
    (h : ∀ l ∈ L, lineWin b l = none) : firstWin b L = none := by
  induction L with
  | nil => rfl
  | cons a rest ih =>
      unfold firstWin
      rw [h a (List.mem_cons_self a rest)]
      exact ih fun l hl => h l (List.mem_cons_of_mem a hl)

theorem firstWin_all_same {b : Board} {m : Player} {L : List (Nat × Nat × Nat)}
    (hex : ∃ l ∈ L, lineWin b l = some m)
    (hall : ∀ l ∈ L, ∀ p, lineWin b l = some p → p = m) :
    firstWin b L = some m := by
  induction L with
  | nil => exact absurd hex (by simp)
  | cons a rest ih =>
      unfold firstWin
      cases ha : lineWin b a with
      | some p => rw [hall a (List.mem_cons_self a rest) p ha]
      | none =>
          rcases hex with ⟨l, hl, hlw⟩
          rcases List.mem_cons.mp hl with rfl | hl'
          · exact absurd hlw (by rw [ha]; intro h; cases h)
          · exact ih ⟨l, hl', hlw⟩
              fun l' hl'' p hp => hall l' (List.mem_cons_of_mem a hl'') p hp

theorem firstWin_of_get? {b : Board} {m : Player} :
    ∀ (L : List (Nat × Nat × Nat)) (k : Nat) (l : Nat × Nat × Nat),
      L.get? k = some l → lineWin b l = some m →
      (∀ j, j < k → ∀ l', L.get? j = some l' → lineWin b l' = none) →
      firstWin b L = some m := by
  intro L
  induction L with
  | nil => intro k l hk; cases k <;> cases hk
  | cons a rest ih =>
      intro k l hk hwin hprev
      cases k with
      | zero =>
          cases hk
          unfold firstWin
          rw [hwin]
      | succ k' =>
          have ha : lineWin b a = none := hprev 0 (Nat.succ_pos k') a rfl
          unfold firstWin
          rw [ha]
          exact ih k' l hk hwin
            fun j hj l' hj' => hprev (j + 1) (Nat.succ_lt_succ hj) l' hj'

/-- C1: on a 9-cell board, `checkWinner` returns the winning mark when one of
the 8 lines is filled by it and the other mark completes no line; otherwise
`Draw` when all 9 cells are occupied; otherwise `null`. -/
theorem c1_checkWinner_correct (b : Board) (hlen : b.length = 9)
    (hwf : noUndef b = true) :
    (∀ m : Player, specWins b m = true → specWins b m.flip = false →
      checkWinner b = some (WinRes.mark m))
    ∧ (specWins b Player.X = false → specWins b Player.O = false →
        specOccupied b = true → checkWinner b = some WinRes.draw)
    ∧ (specWins b Player.X = false → specWins b Player.O = false →
        specOccupied b = false → checkWinner b = none) := by
  refine ⟨?_, ?_, ?_⟩
  · intro m hm hother
    have hex := specWins_iff.mp hm
    have hall : ∀ l ∈ winningCombinations, ∀ p, lineWin b l = some p → p = m := by
      intro l hl p hp
      by_contra hne
      have hpm : p = m.flip := by
        cases p <;> cases m <;> first | rfl | exact absurd rfl hne
      have : specWins b m.flip = true := specWins_iff.mpr ⟨l, hl, hpm ▸ hp⟩
      rw [this] at hother
      cases hother
    unfold checkWinner
    rw [firstWin_all_same hex hall]
  · intro hX hO hocc
    have hnone : ∀ l ∈ winningCombinations, lineWin b l = none := by
      intro l hl
      cases hw : lineWin b l with
      | none => rfl
      | some p =>
          have : specWins b p = true := specWins_iff.mpr ⟨l, hl, hw⟩
          cases p
          · rw [this] at hX; cases hX
          · rw [this] at hO; cases hO
    have hev : everyNotNull b = true := by
      unfold everyNotNull
      rw [List.all_eq_true]
      intro c hc
      have := (List.all_eq_true.mp hocc) c hc
      cases c <;> simp_all [Cell.truthy]
    unfold checkWinner
    rw [firstWin_eq_none hnone, hev]
    rfl
  · intro hX hO hocc
    have hnone : ∀ l ∈ winningCombinations, lineWin b l = none := by
      intro l hl
      cases hw : lineWin b l with
      | none => rfl
      | some p =>
          have : specWins b p = true := specWins_iff.mpr ⟨l, hl, hw⟩
          cases p
          · rw [this] at hX; cases hX
          · rw [this] at hO; cases hO
    have hev : everyNotNull b = false := by
      cases hev : everyNotNull b with
      | false => rfl
      | true =>
          have : specOccupied b = true := by
            unfold specOccupied
            rw [List.all_eq_true]
            intro c hc
            have h1 := (List.all_eq_true.mp hev) c hc
            have h2 := (List.all_eq_true.mp hwf) c hc
            cases c <;> simp_all [Cell.truthy, everyNotNull]
          rw [this] at hocc
          cases hocc
    unfold checkWinner
    rw [firstWin_eq_none hnone, hev]
    rfl

/-- C1 witness: scenario B's final board (X on the 0-4-8 diagonal) for the
win branch; scenario C's board for the draw branch; a one-mark board for the
null branch. -/
theorem c1_checkWinner_correct_witness :
    (([Cell.mark Player.X, Cell.mark Player.O, Cell.mark Player.O,
       Cell.null, Cell.mark Player.X, Cell.null,
       Cell.null, Cell.null, Cell.mark Player.X] : Board).length = 9)
    ∧ noUndef [Cell.mark Player.X, Cell.mark Player.O, Cell.mark Player.O,
       Cell.null, Cell.mark Player.X, Cell.null,
       Cell.null, Cell.null, Cell.mark Player.X] = true
    ∧ specWins [Cell.mark Player.X, Cell.mark Player.O, Cell.mark Player.O,
       Cell.null, Cell.mark Player.X, Cell.null,
       Cell.null, Cell.null, Cell.mark Player.X] Player.X = true
    ∧ specWins [Cell.mark Player.X, Cell.mark Player.O, Cell.mark Player.O,
       Cell.null, Cell.mark Player.X, Cell.null,
       Cell.null, Cell.null, Cell.mark Player.X] Player.X.flip = false
    ∧ checkWinner [Cell.mark Player.X, Cell.mark Player.O, Cell.mark Player.O,
       Cell.null, Cell.mark Player.X, Cell.null,
       Cell.null, Cell.null, Cell.mark Player.X] = some (WinRes.mark Player.X) := by
  refine ⟨by decide, by decide, by decide, by decide, ?_⟩
  exact (c1_checkWinner_correct _ (by decide) (by decide)).1 Player.X (by decide) (by decide)

/-- C9: `checkWinner` is a total function that, even on a tampered board where
several lines are complete, returns the mark of the first completed line in
the fixed order of `winningCombinations` (rows, then columns, then
diagonals). -/
theorem c9_checkWinner_first_line (b : Board) (k : Nat) (l : Nat × Nat × Nat)
    (m : Player) (hk : winningCombinations.get? k = some l)
    (hwin : lineWin b l = some m)
    (hprev : ∀ j, j < k → ∀ l', winningCombinations.get? j = some l' →
      lineWin b l' = none) :
    checkWinner b = some (WinRes.mark m) := by
  unfold checkWinner
  rw [firstWin_of_get? winningCombinations k l hk hwin hprev]

/-- C9 witness: a tampered board where row 0 is all-X and row 1 is all-O;
the first line in evaluation order (row 0) decides, so X wins. -/
theorem c9_checkWinner_first_line_witness :
    winningCombinations.get? 0 = some (0, 1, 2)
    ∧ lineWin [Cell.mark Player.X, Cell.mark Player.X, Cell.mark Player.X,
        Cell.mark Player.O, Cell.mark Player.O, Cell.mark Player.O,
        Cell.null, Cell.null, Cell.null] (0, 1, 2) = some Player.X
    ∧ lineWin [Cell.mark Player.X, Cell.mark Player.X, Cell.mark Player.X,
        Cell.mark Player.O, Cell.mark Player.O, Cell.mark Player.O,
        Cell.null, Cell.null, Cell.null] (3, 4, 5) = some Player.O
    ∧ checkWinner [Cell.mark Player.X, Cell.mark Player.X, Cell.mark Player.X,
        Cell.mark Player.O, Cell.mark Player.O, Cell.mark Player.O,
        Cell.null, Cell.null, Cell.null] = some (WinRes.mark Player.X) := by
  refine ⟨by decide, by decide, by decide, ?_⟩
  exact c9_checkWinner_first_line _ 0 (0, 1, 2) Player.X (by decide) (by decide)
    (fun j hj => absurd hj (Nat.not_lt_zero j))

/-- A placeholder room row for exercising the purely local code paths (local
mode never reads or writes the row). -/
def emptyRow : RoomRow :=
  { code := "", host_id := "", guest_id := none, board := []
    current_player := Player.X, winner := none, status := "waiting" }

/-- C2 (as stated) fails: `handleClick` has no range check — `board[9]` on a
9-element array is `undefined`, which is falsy, so the guard
`if (board[index] || winner) return` does not fire. The click at index 9 on
the initial board goes through: the board grows to 10 cells, the move count
becomes 1 and the turn flips, none of which a silent no-op would allow. -/
theorem c2_out_of_range_not_noop :
    (handleClick GameMode.localMode Option.none initState emptyRow 9).1.moveCount = 1
    ∧ (handleClick GameMode.localMode Option.none initState emptyRow 9).1.currentPlayer
        = Player.O
    ∧ (handleClick GameMode.localMode Option.none initState emptyRow 9).1.board
        = List.replicate 9 Cell.null ++ [Cell.mark Player.X] := by
  decide

/-- C2 (amended): a click on an occupied cell, a click while a winner is
already set, and — in online mode — a click while not connected or out of
turn, are all silent no-ops leaving the whole local state and the room row
unchanged. (Out-of-range indices are NOT rejected; the UI only ever passes
0-8.) -/
theorem c2_noop_guards (mode : GameMode) (og : Option OnlineGameState)
    (s : AppState) (r : RoomRow) (i : Nat) :
    ((cellAt s.board i).truthy = true → handleClick mode og s r i = (s, r))
    ∧ (s.winner.isSome = true → handleClick mode og s r i = (s, r))
    ∧ (∀ o : OnlineGameState, og = some o → mode = GameMode.onlineMode →
        o.connected = false → handleClick mode og s r i = (s, r))
    ∧ (∀ o : OnlineGameState, og = some o → mode = GameMode.onlineMode →
        s.currentPlayer ≠ (if o.isHost then Player.X else Player.O) →
        handleClick mode og s r i = (s, r)) := by
  refine ⟨?_, ?_, ?_, ?_⟩
  · intro h
    simp [handleClick, h]
  · intro h
    simp [handleClick, h]
  · intro o ho hm hc
    by_cases h1 : ((cellAt s.board i).truthy || s.winner.isSome) = true
    · simp [handleClick, h1]
    · unfold handleClick
      rw [if_neg (by simpa using h1), if_pos ⟨hm, by simp [ho, hc]⟩]
  · intro o ho hm ht
    by_cases h1 : ((cellAt s.board i).truthy || s.winner.isSome) = true
    · simp [handleClick, h1]
    · by_cases h2 : mode = GameMode.onlineMode ∧
          ¬((og.map OnlineGameState.connected).getD false)
      · unfold handleClick
        rw [if_neg (by simpa using h1), if_pos h2]
      · unfold handleClick
        rw [if_neg (by simpa using h1), if_neg h2,
          if_pos ⟨hm, by simpa [ho] using ht⟩]

/-- C2 witness: on the initial board a second click on cell 0 (occupied by X)
is a no-op, and in online mode the guest (O) cannot move on X's turn. -/
theorem c2_noop_guards_witness :
    handleClick GameMode.localMode Option.none
      (handleClick GameMode.localMode Option.none initState emptyRow 0).1 emptyRow 0
      = ((handleClick GameMode.localMode Option.none initState emptyRow 0).1, emptyRow)
    ∧ handleClick GameMode.onlineMode
        (some { roomCode := "AB12CD", isHost := false, connected := true
                playerId := some "guest-1", errorMessage := none })
        initState emptyRow 4 = (initState, emptyRow) := by
  constructor
  · exact (c2_noop_guards GameMode.localMode Option.none
      (handleClick GameMode.localMode Option.none initState emptyRow 0).1 emptyRow 0).1
      (by decide)
  · exact (c2_noop_guards GameMode.onlineMode
      (some { roomCode := "AB12CD", isHost := false, connected := true
              playerId := some "guest-1", errorMessage := none })
      initState emptyRow 4).2.2.2 _ rfl rfl (by decide)

/-- A local-mode click succeeds (is not bounced by the
`if (board[index] || winner) return` guard) when the target cell is not a
mark and there is no winner yet. -/
def moveSucceeds (s : AppState) (i : Nat) : Bool :=
  !(cellAt s.board i).truthy && !s.winner.isSome

/-- The local-state effect of `handleClick` in local mode (the room row is
neither read nor written there). -/
def stepLocal (s : AppState) (i : Nat) : AppState :=
  (handleClick GameMode.localMode Option.none s emptyRow i).1

/-- The marks actually placed by a sequence of clicks in local mode: each
successful click records the mark it placed (the current player at that
moment); bounced clicks record nothing. -/
def playedMarks : AppState → List Nat → List Player
  | _, [] => []
  | s, i :: is =>
      if moveSucceeds s i then s.currentPlayer :: playedMarks (stepLocal s i) is
      else playedMarks (stepLocal s i) is

theorem moveSucceeds_winner_none {s : AppState} {i : Nat}
    (h : moveSucceeds s i = true) : s.winner = none := by
  revert h
  unfold moveSucceeds
  cases hw : s.winner <;> simp [hw]

theorem stepLocal_noop {s : AppState} {i : Nat}
    (h : moveSucceeds s i = false) : stepLocal s i = s := by
  have h1 : ((cellAt s.board i).truthy || s.winner.isSome) = true := by
    revert h
    unfold moveSucceeds
    cases (cellAt s.board i).truthy <;> cases s.winner.isSome <;> simp
  unfold stepLocal
  simp [handleClick, h1]

theorem stepLocal_succ {s : AppState} {i : Nat}
    (h : moveSucceeds s i = true) :
    (checkWinner (setCell s.board i (Cell.mark s.currentPlayer)) = none →
      (stepLocal s i).currentPlayer = s.currentPlayer.flip
      ∧ (stepLocal s i).winner = none)
    ∧ (∀ w : WinRes,
        checkWinner (setCell s.board i (Cell.mark s.currentPlayer)) = some w →
        (stepLocal s i).currentPlayer = s.currentPlayer
        ∧ (stepLocal s i).winner = some w) := by
  have h1 : ((cellAt s.board i).truthy || s.winner.isSome) = false := by
    revert h
    unfold moveSucceeds
    cases (cellAt s.board i).truthy <;> cases s.winner.isSome <;> simp
  constructor
  · intro hcw
    unfold stepLocal handleClick
    rw [if_neg (by simp [h1]), if_neg (by simp), if_neg (by simp)]
    simp [hcw]
    exact moveSucceeds_winner_none h
  · intro w hcw
    unfold stepLocal handleClick
    rw [if_neg (by simp [h1]), if_neg (by simp), if_neg (by simp)]
    cases w with
    | mark p => cases p <;> simp [hcw, bumpScore]
    | draw => simp [hcw]

theorem flip_parity (n : Nat) :
    (if n % 2 = 0 then Player.X else Player.O).flip
      = if (n + 1) % 2 = 0 then Player.X else Player.O := by
  rcases Nat.mod_two_eq_zero_or_one n with h | h <;>
    simp [h, Nat.add_mod, Player.flip]

theorem playedMarks_parity (ms : List Nat) :
    ∀ (s : AppState) (n : Nat),
      (s.winner = none → s.currentPlayer = (if n % 2 = 0 then Player.X else Player.O)) →
      ∀ k, k < (playedMarks s ms).length →
        (playedMarks s ms).get? k
          = some (if (n + k) % 2 = 0 then Player.X else Player.O) := by
  induction ms with
  | nil =>
      intro s n _ k hk
      simp [playedMarks] at hk
  | cons i is ih =>
      intro s n h k hk
      by_cases hs : moveSucceeds s i = true
      · rw [playedMarks, if_pos hs] at hk ⊢
        cases k with
        | zero =>
            simp only [List.get?]
            rw [h (moveSucceeds_winner_none hs), Nat.add_zero]
        | succ k' =>
            simp only [List.get?]
            have harith : n + (k' + 1) = (n + 1) + k' := by omega
            rw [harith]
            refine ih (stepLocal s i) (n + 1) ?_ k' (by simpa using hk)
            intro hw'
            cases hcw : checkWinner (setCell s.board i (Cell.mark s.currentPlayer)) with
            | none =>
                have := ((stepLocal_succ hs).1 hcw).1
                rw [this, h (moveSucceeds_winner_none hs), flip_parity]
            | some w =>
                have := ((stepLocal_succ hs).2 w hcw).2
                rw [this] at hw'
                cases hw'
      · have hs' : moveSucceeds s i = false := by
          cases hmv : moveSucceeds s i
          · rfl
          · exact absurd hmv hs
        rw [playedMarks, if_neg hs, stepLocal_noop hs'] at hk ⊢
        exact ih s n h k hk

/-- C5: in local mode a successful move that produces no outcome flips the
current player, a successful move that produces an outcome leaves the turn
unflipped, and from the initial state the marks placed by any click sequence
alternate X, O, X, O, ... -/
theorem c5_turn_alternation :
    (∀ (s : AppState) (i : Nat), moveSucceeds s i = true →
      checkWinner (setCell s.board i (Cell.mark s.currentPlayer)) = none →
      (stepLocal s i).currentPlayer = s.currentPlayer.flip)
    ∧ (∀ (s : AppState) (i : Nat) (w : WinRes), moveSucceeds s i = true →
      checkWinner (setCell s.board i (Cell.mark s.currentPlayer)) = some w →
      (stepLocal s i).currentPlayer = s.currentPlayer)
    ∧ (∀ (ms : List Nat) (k : Nat), k < (playedMarks initState ms).length →
      (playedMarks initState ms).get? k
        = some (if k % 2 = 0 then Player.X else Player.O)) := by
  refine ⟨?_, ?_, ?_⟩
  · intro s i hs hcw
    exact ((stepLocal_succ hs).1 hcw).1
  · intro s i w hs hcw
    exact ((stepLocal_succ hs).2 w hcw).1
  · intro ms k hk
    have := playedMarks_parity ms initState 0 (fun _ => rfl) k hk
    rwa [Nat.zero_add] at this

/-- C5 witness: the first move from the initial state flips the turn to O,
and the click sequence 0, 1, 2 records the marks X, O, X. -/
theorem c5_turn_alternation_witness :
    (stepLocal initState 0).currentPlayer = Player.O
    ∧ playedMarks initState [0, 1, 2] = [Player.X, Player.O, Player.X]
    ∧ (playedMarks initState [0, 1, 2]).get? 1 = some Player.O := by
  refine ⟨?_, by decide, ?_⟩
  · exact c5_turn_alternation.1 initState 0 (by decide) (by decide)
  · exact c5_turn_alternation.2.2 [0, 1, 2] 1 (by decide)

/-- C10: `resetGame` always restores the nine empty cells, the X turn, the
null winner and the zero move count, while preserving both players' names
and scores and the game history; in online mode it additionally overwrites
the matching room row with the cleared board, turn X, null winner and status
`'playing'`, whatever the row held before, leaving `code`, `host_id` and
`guest_id` untouched. -/
theorem c10_resetGame (mode : GameMode) (og : Option OnlineGameState)
    (s : AppState) (r : RoomRow) :
    ((resetGame mode og s r).1.board = List.replicate 9 Cell.null
    ∧ (resetGame mode og s r).1.currentPlayer = Player.X
    ∧ (resetGame mode og s r).1.winner = none
    ∧ (resetGame mode og s r).1.moveCount = 0
    ∧ (resetGame mode og s r).1.playerX = s.playerX
    ∧ (resetGame mode og s r).1.playerO = s.playerO
    ∧ (resetGame mode og s r).1.gameHistory = s.gameHistory)
    ∧ (∀ o : OnlineGameState, og = some o → mode = GameMode.onlineMode →
        o.roomCode ≠ "" → r.code = o.roomCode →
        (resetGame mode og s r).2.board = List.replicate 9 Cell.null
        ∧ (resetGame mode og s r).2.current_player = Player.X
        ∧ (resetGame mode og s r).2.winner = none
        ∧ (resetGame mode og s r).2.status = "playing"
        ∧ (resetGame mode og s r).2.code = r.code
        ∧ (resetGame mode og s r).2.host_id = r.host_id
        ∧ (resetGame mode og s r).2.guest_id = r.guest_id) := by
  constructor
  · exact ⟨rfl, rfl, rfl, rfl, rfl, rfl, rfl⟩
  · intro o ho hm hne hc
    subst ho hm
    have hcode : ogRoomCode (some o) = o.roomCode := rfl
    unfold resetGame
    rw [if_pos (show GameMode.onlineMode = GameMode.onlineMode
          ∧ ogRoomCode (some o) ≠ "" from ⟨rfl, by rwa [hcode]⟩)]
    unfold pushReset
    rw [hcode, if_pos hc]
    exact ⟨rfl, rfl, rfl, rfl, rfl, rfl, rfl⟩

/-- C10 witness: resetting a finished online room clears it to status
`'playing'` with an empty board and no winner, keeping the guest. -/
theorem c10_resetGame_witness :
    (resetGame GameMode.onlineMode
      (some { roomCode := "AB12CD", isHost := true, connected := true
              playerId := some "host-1", errorMessage := none })
      initState
      { code := "AB12CD", host_id := "host-1", guest_id := some "guest-1"
        board := List.replicate 9 (Cell.mark Player.X)
        current_player := Player.O, winner := some WinRes.draw
        status := "finished" }).2.status = "playing"
    ∧ (resetGame GameMode.onlineMode
      (some { roomCode := "AB12CD", isHost := true, connected := true
              playerId := some "host-1", errorMessage := none })
      initState
      { code := "AB12CD", host_id := "host-1", guest_id := some "guest-1"
        board := List.replicate 9 (Cell.mark Player.X)
        current_player := Player.O, winner := some WinRes.draw
        status := "finished" }).2.winner = none := by
  constructor
  · exact ((c10_resetGame GameMode.onlineMode _ initState _).2 _ rfl rfl
      (by decide) rfl).2.2.2.1
  · exact ((c10_resetGame GameMode.onlineMode _ initState _).2 _ rfl rfl
      (by decide) rfl).2.2.1

/-- C4 (as stated) fails: the host can move while the room is still
`'waiting'` (nothing stops a connected host from clicking before a guest
joins), and the non-ending push writes only `board` and `current_player`.
The move below succeeds (`moveCount` becomes 1) and produces no outcome,
yet the row's `status` stays `'waiting'` — the claimed full-state push of
board, turn, outcome AND status would have written the active status
`'playing'`. -/
theorem c4_full_push_counterexample :
    (handleClick GameMode.onlineMode
      (some { roomCode := "AB12CD", isHost := true, connected := true
              playerId := some "host-1", errorMessage := none })
      initState (createRow initState "AB12CD" "host-1") 0).1.moveCount = 1
    ∧ (handleClick GameMode.onlineMode
      (some { roomCode := "AB12CD", isHost := true, connected := true
              playerId := some "host-1", errorMessage := none })
      initState (createRow initState "AB12CD" "host-1") 0).1.winner = none
    ∧ (handleClick GameMode.onlineMode
      (some { roomCode := "AB12CD", isHost := true, connected := true
              playerId := some "host-1", errorMessage := none })
      initState (createRow initState "AB12CD" "host-1") 0).2.status = "waiting" := by
  decide

/-- C4 (amended): the push after a successful online move is partial. A
game-ending move writes `board`, `winner` and `status = 'finished'`, leaving
`current_player` at its prior row value; a non-ending move writes `board` and
`current_player`, leaving `winner` and `status` at their prior row values.
Consequently all four remote fields equal the local post-move values exactly
when the untouched fields already agreed — e.g. a non-ending move on a row
that was `'playing'` with a null winner, or an ending move on a row whose
`current_player` matched the local turn. -/
theorem c4_push_delta (s : AppState) (r : RoomRow) (o : OnlineGameState)
    (i : Nat)
    (hguard : ((cellAt s.board i).truthy || s.winner.isSome) = false)
    (hconn : o.connected = true)
    (hturn : s.currentPlayer = (if o.isHost then Player.X else Player.O))
    (hcode : o.roomCode ≠ "")
    (hmatch : r.code = o.roomCode) :
    (∀ w : WinRes,
      checkWinner (setCell s.board i (Cell.mark s.currentPlayer)) = some w →
      (handleClick GameMode.onlineMode (some o) s r i).2.board
          = (handleClick GameMode.onlineMode (some o) s r i).1.board
      ∧ (handleClick GameMode.onlineMode (some o) s r i).2.winner
          = (handleClick GameMode.onlineMode (some o) s r i).1.winner
      ∧ (handleClick GameMode.onlineMode (some o) s r i).2.status = "finished"
      ∧ (handleClick GameMode.onlineMode (some o) s r i).2.current_player
          = r.current_player
      ∧ (r.current_player = s.currentPlayer →
          (handleClick GameMode.onlineMode (some o) s r i).2.current_player
            = (handleClick GameMode.onlineMode (some o) s r i).1.currentPlayer))
    ∧ (checkWinner (setCell s.board i (Cell.mark s.currentPlayer)) = none →
      (handleClick GameMode.onlineMode (some o) s r i).2.board
          = (handleClick GameMode.onlineMode (some o) s r i).1.board
      ∧ (handleClick GameMode.onlineMode (some o) s r i).2.current_player
          = (handleClick GameMode.onlineMode (some o) s r i).1.currentPlayer
      ∧ (handleClick GameMode.onlineMode (some o) s r i).2.winner = r.winner
      ∧ (handleClick GameMode.onlineMode (some o) s r i).2.status = r.status
      ∧ (r.winner = none → r.status = "playing" →
          (handleClick GameMode.onlineMode (some o) s r i).2.winner
            = (handleClick GameMode.onlineMode (some o) s r i).1.winner
          ∧ (handleClick GameMode.onlineMode (some o) s r i).2.status
            = "playing")) := by
  have hw0 : s.winner = none := by
    revert hguard
    cases hww : s.winner <;> simp [hww]
  constructor
  · intro w hcw
    unfold handleClick
    rw [if_neg (by simp [hguard]), if_neg (by simp [hconn]),
      if_neg (by simp [hturn])]
    simp only [hcw]
    rw [if_pos (show True ∧ ogRoomCode (some o) ≠ "" from ⟨trivial, hcode⟩)]
    unfold pushEnd
    rw [if_pos (show r.code = ogRoomCode (some o) from hmatch)]
    cases w with
    | mark p =>
        cases p <;>
          exact ⟨rfl, rfl, rfl, rfl, fun hcp => hcp⟩
    | draw => exact ⟨rfl, rfl, rfl, rfl, fun hcp => hcp⟩
  · intro hcw
    unfold handleClick
    rw [if_neg (by simp [hguard]), if_neg (by simp [hconn]),
      if_neg (by simp [hturn])]
    simp only [hcw]
    rw [if_pos (show True ∧ ogRoomCode (some o) ≠ "" from ⟨trivial, hcode⟩)]
    unfold pushCont
    rw [if_pos (show r.code = ogRoomCode (some o) from hmatch)]
    exact ⟨rfl, rfl, rfl, rfl, fun hwn hst => ⟨by rw [hwn, hw0], by rw [hst]⟩⟩

/-- C4 witness: the host wins with the 0-4-8 diagonal on a playing row that
was in sync; the push records the winner and status `'finished'`, and (the
row's turn having matched) all four fields agree with the local state. -/
theorem c4_push_delta_witness :
    (handleClick GameMode.onlineMode
      (some { roomCode := "AB12CD", isHost := true, connected := true
              playerId := some "host-1", errorMessage := none })
      { initState with
          board := [Cell.mark Player.X, Cell.mark Player.O, Cell.mark Player.O,
            Cell.null, Cell.mark Player.X, Cell.null,
            Cell.null, Cell.null, Cell.null]
          moveCount := 4 }
      { code := "AB12CD", host_id := "host-1", guest_id := some "guest-1"
        board := [Cell.mark Player.X, Cell.mark Player.O, Cell.mark Player.O,
          Cell.null, Cell.mark Player.X, Cell.null,
          Cell.null, Cell.null, Cell.null]
        current_player := Player.X, winner := none, status := "playing" } 8).2.status
      = "finished"
    ∧ (handleClick GameMode.onlineMode
      (some { roomCode := "AB12CD", isHost := true, connected := true
              playerId := some "host-1", errorMessage := none })
      { initState with
          board := [Cell.mark Player.X, Cell.mark Player.O, Cell.mark Player.O,
            Cell.null, Cell.mark Player.X, Cell.null,
            Cell.null, Cell.null, Cell.null]
          moveCount := 4 }
      { code := "AB12CD", host_id := "host-1", guest_id := some "guest-1"
        board := [Cell.mark Player.X, Cell.mark Player.O, Cell.mark Player.O,
          Cell.null, Cell.mark Player.X, Cell.null,
          Cell.null, Cell.null, Cell.null]
        current_player := Player.X, winner := none, status := "playing" } 8).2.winner
      = (handleClick GameMode.onlineMode
      (some { roomCode := "AB12CD", isHost := true, connected := true
              playerId := some "host-1", errorMessage := none })
      { initState with
          board := [Cell.mark Player.X, Cell.mark Player.O, Cell.mark Player.O,
            Cell.null, Cell.mark Player.X, Cell.null,
            Cell.null, Cell.null, Cell.null]
          moveCount := 4 }
      { code := "AB12CD", host_id := "host-1", guest_id := some "guest-1"
        board := [Cell.mark Player.X, Cell.mark Player.O, Cell.mark Player.O,
          Cell.null, Cell.mark Player.X, Cell.null,
          Cell.null, Cell.null, Cell.null]
        current_player := Player.X, winner := none, status := "playing" } 8).1.winner := by
  constructor
  · exact (((c4_push_delta _ _ _ 8 (by decide) rfl (by decide) (by decide)
      rfl).1 (WinRes.mark Player.X) (by decide))).2.2.1
  · exact (((c4_push_delta _ _ _ 8 (by decide) rfl (by decide) (by decide)
      rfl).1 (WinRes.mark Player.X) (by decide))).2.1

theorem handleClick_row_cases (mode : GameMode) (og : Option OnlineGameState)
    (s : AppState) (r : RoomRow) (i : Nat) :
    (handleClick mode og s r i).2 = r
    ∨ (∃ nb w, (handleClick mode og s r i).2 = pushEnd (ogRoomCode og) nb w r)
    ∨ (∃ nb p, (handleClick mode og s r i).2 = pushCont (ogRoomCode og) nb p r) := by
  by_cases h1 : ((cellAt s.board i).truthy || s.winner.isSome) = true
  · left
    simp [handleClick, h1]
  · by_cases h2 : mode = GameMode.onlineMode
        ∧ ¬((og.map OnlineGameState.connected).getD false)
    · left
      unfold handleClick
      rw [if_neg (by simpa using h1), if_pos h2]
    · by_cases h3 : mode = GameMode.onlineMode ∧ s.currentPlayer
          ≠ (if (og.map OnlineGameState.isHost).getD false then Player.X else Player.O)
      · left
        unfold handleClick
        rw [if_neg (by simpa using h1), if_neg h2, if_pos h3]
      · by_cases h4 : mode = GameMode.onlineMode ∧ ogRoomCode og ≠ ""
        · cases hcw : checkWinner (setCell s.board i (Cell.mark s.currentPlayer)) with
          | some w =>
              refine Or.inr (Or.inl
                ⟨setCell s.board i (Cell.mark s.currentPlayer), w, ?_⟩)
              unfold handleClick
              rw [if_neg (by simpa using h1), if_neg h2, if_neg h3]
              simp only [hcw]
              rw [if_pos h4]
          | none =>
              refine Or.inr (Or.inr
                ⟨setCell s.board i (Cell.mark s.currentPlayer), s.currentPlayer.flip, ?_⟩)
              unfold handleClick
              rw [if_neg (by simpa using h1), if_neg h2, if_neg h3]
              simp only [hcw]
              rw [if_pos h4]
        · left
          cases hcw : checkWinner (setCell s.board i (Cell.mark s.currentPlayer)) with
          | some w =>
              unfold handleClick
              rw [if_neg (by simpa using h1), if_neg h2, if_neg h3]
              simp only [hcw]
              rw [if_neg h4]
          | none =>
              unfold handleClick
              rw [if_neg (by simpa using h1), if_neg h2, if_neg h3]
              simp only [hcw]
              rw [if_neg h4]

/-- The room rows reachable through this client's operations: a host creating
a room, a guest joining a still-waiting room, a click, and a game reset. The
paired `AppState` is the acting client's local state; at creation and join it
is arbitrary (a fresh client can arrive holding any local game). -/
inductive Reach : AppState → RoomRow → Prop
  | created (s : AppState) (code hostId : String) :
      Reach s (createRow s code hostId)
  | joined (s s' : AppState) (r : RoomRow) (gid : String) :
      Reach s r → joinFilter r.code r = true → Reach s' (joinUpdateRow gid r)
  | moved (s : AppState) (r : RoomRow) (mode : GameMode)
      (og : Option OnlineGameState) (i : Nat) :
      Reach s r →
      Reach (handleClick mode og s r i).1 (handleClick mode og s r i).2
  | didReset (s : AppState) (r : RoomRow) (mode : GameMode)
      (og : Option OnlineGameState) :
      Reach s r → Reach (resetGame mode og s r).1 (resetGame mode og s r).2

/-- C6: in every room row reachable by this client's operations, the status
is `'finished'` exactly when the winner field is non-null: creation leaves
(`'waiting'`, null), joining writes `'playing'` without touching the winner,
an ending move writes the winner together with `'finished'`, a non-ending
move touches neither, and a reset writes a null winner together with
`'playing'`. -/
theorem c6_status_iff_winner (s : AppState) (r : RoomRow) (h : Reach s r) :
    r.status = "finished" ↔ r.winner.isSome = true := by
  induction h with
  | created s code hostId =>
      show ("waiting" = "finished") ↔ ((none : Option WinRes).isSome = true)
      decide
  | joined s s' r gid hr hf ih =>
      have hw : r.status = "waiting" := by
        simp only [joinFilter, Bool.and_eq_true, decide_eq_true_eq] at hf
        exact hf.1.2
      show ("playing" = "finished") ↔ (r.winner.isSome = true)
      constructor
      · intro hc
        exact absurd hc (by decide)
      · intro hc
        have := ih.mpr hc
        rw [this] at hw
        exact absurd hw (by decide)
  | moved s r mode og i hr ih =>
      rcases handleClick_row_cases mode og s r i with hrow | ⟨nb, w, hrow⟩ | ⟨nb, p, hrow⟩
      · rw [hrow]
        exact ih
      · rw [hrow]
        unfold pushEnd
        by_cases hc : r.code = ogRoomCode og
        · rw [if_pos hc]
          simp
        · rw [if_neg hc]
          exact ih
      · rw [hrow]
        unfold pushCont
        by_cases hc : r.code = ogRoomCode og
        · rw [if_pos hc]
          simpa using ih
        · rw [if_neg hc]
          exact ih
  | didReset s r mode og hr ih =>
      unfold resetGame
      by_cases hcond : mode = GameMode.onlineMode ∧ ogRoomCode og ≠ ""
      · rw [if_pos hcond]
        unfold pushReset
        by_cases hc : r.code = ogRoomCode og
        · rw [if_pos hc]
          simp
        · rw [if_neg hc]
          exact ih
      · rw [if_neg hcond]
        exact ih

/-- C6 witness: a freshly created room is reachable, and on it the
equivalence holds (status `'waiting'`, winner null). -/
theorem c6_status_iff_winner_witness :
    ((createRow initState "AB12CD" "host-1").status = "finished"
      ↔ (createRow initState "AB12CD" "host-1").winner.isSome = true) :=
  c6_status_iff_winner initState (createRow initState "AB12CD" "host-1")
    (Reach.created initState "AB12CD" "host-1")

theorem updatePolicy_fresh_false {uid : String} {r : RoomRow}
    (hh : r.host_id ≠ uid) (hg : r.guest_id ≠ some uid) :
    updatePolicy uid r = false := by
  unfold updatePolicy
  rw [decide_eq_false hh, decide_eq_false hg]
  rfl

theorem joinRoomStoreRls_fst_id (store : List RoomRow) (entered uid : String)
    (h : ∀ r ∈ store, updatePolicy uid r = false) :
    (joinRoomStoreRls store entered uid).1 = store := by
  unfold joinRoomStoreRls
  induction store with
  | nil => rfl
  | cons a rest ih =>
      simp only [List.map_cons]
      have hcond :
          ¬((joinFilter (toUpperCase entered) a && updatePolicy uid a) = true) := by
        rw [h a (List.mem_cons_self a rest), Bool.and_false]
        exact Bool.false_ne_true
      rw [if_neg hcond, List.cons.injEq]
      exact ⟨rfl, ih fun r hr => h r (List.mem_cons_of_mem a hr)⟩

theorem joinRoomStoreRls_snd_nil (store : List RoomRow) (entered uid : String)
    (h : ∀ r ∈ store, updatePolicy uid r = false) :
    (joinRoomStoreRls store entered uid).2 = [] := by
  unfold joinRoomStoreRls
  rw [List.filter_eq_nil_iff.mpr fun a ha => by
    rw [h a ha, Bool.and_false]; exact Bool.false_ne_true]
  rfl

theorem joinRoomRls_fresh_fails (store : List RoomRow) (entered uid : String)
    (og : Option OnlineGameState) (hent : entered ≠ "")
    (hfresh : ∀ r ∈ store, r.host_id ≠ uid ∧ r.guest_id ≠ some uid) :
    joinRoomRls store entered uid og = (store, some (failedOG og)) := by
  have hpol : ∀ r ∈ store, updatePolicy uid r = false := fun r hr =>
    updatePolicy_fresh_false (hfresh r hr).1 (hfresh r hr).2
  have h2 := joinRoomStoreRls_snd_nil store entered uid hpol
  unfold joinRoomRls
  rw [if_neg hent, h2, joinRoomStoreRls_fst_id store entered uid hpol]

/-- C3: the claim is right about the intended compare-and-swap, but the code
has a bug that falsifies it. The migration enables row-level security and its
UPDATE policy (SQL lines 56-61) lets a user update only rooms where they are
already the host or the guest — yet its own header comment says the policies
are "for room creation and joining". `joinRoom` signs up a fresh identity
(App.tsx line 123), which is neither, so although the waiting room below
matches the `.eq('code').eq('status','waiting').is('guest_id', null)` filter
exactly as the claim demands, the policy-checked update matches zero rows,
`.single()` errors, the table is unchanged and the join fails — no join can
ever succeed, contradicting the claimed "updates the room if and only if a
Waiting room with the code and a null guestId exists". -/
theorem c3_join_blocked_by_rls :
    joinFilter (toUpperCase "ab12cd") (createRow initState "AB12CD" "host-1")
        = true
    ∧ updatePolicy "guest-1" (createRow initState "AB12CD" "host-1") = false
    ∧ joinRoomRls [createRow initState "AB12CD" "host-1"] "ab12cd" "guest-1"
        none
      = ([createRow initState "AB12CD" "host-1"], some (failedOG none)) := by
  decide

theorem generatedRoomCode_length (bytes : List Nat) :
    (generatedRoomCode bytes).length = bytes.length := by
  unfold generatedRoomCode toUpperCase nanoidOfBytes
  simp

theorem nanoid_chars_mem (bytes : List Nat) :
    ∀ c ∈ (nanoidOfBytes bytes).data, c ∈ urlAlphabet := by
  intro c hc
  unfold nanoidOfBytes at hc
  rcases List.mem_map.mp hc with ⟨b, _, rfl⟩
  have hlt : b % 64 < urlAlphabet.length := by
    have h64 : urlAlphabet.length = 64 := by decide
    rw [h64]
    exact Nat.mod_lt _ (by decide)
  have hget : urlAlphabet.getD (b % 64) 'u' = urlAlphabet[b % 64] := by
    rw [List.getD_eq_getElem?_getD, List.getElem?_eq_getElem hlt, Option.getD_some]
  rw [hget]
  exact List.getElem_mem hlt

/-- C8 (as stated) fails: nanoid's URL alphabet contains `'-'` (and `'_'`),
which `toUpperCase` leaves in place. Six random bytes equal to 8 (the index
of `'-'` in the alphabet) produce the room code `"------"`, which is not
uppercase alphanumeric. -/
theorem c8_code_counterexample :
    generatedRoomCode [8, 8, 8, 8, 8, 8] = "------"
    ∧ ((generatedRoomCode [8, 8, 8, 8, 8, 8]).data.all
        fun c => decide (('A' ≤ c ∧ c ≤ 'Z') ∨ ('0' ≤ c ∧ c ≤ '9'))) = false := by
  decide

/-- C8 (amended): every generated room code has exactly 6 characters, each
drawn from the uppercased nanoid URL alphabet — an uppercase letter, a
digit, `'-'` or `'_'`. -/
theorem c8_code_shape (bytes : List Nat) (h : bytes.length = 6) :
    (generatedRoomCode bytes).length = 6
    ∧ ∀ c ∈ (generatedRoomCode bytes).data,
        ('A' ≤ c ∧ c ≤ 'Z') ∨ ('0' ≤ c ∧ c ≤ '9') ∨ c = '-' ∨ c = '_' := by
  constructor
  · rw [generatedRoomCode_length bytes, h]
  · have hmaster : ∀ a ∈ urlAlphabet,
        ('A' ≤ upperChar a ∧ upperChar a ≤ 'Z')
        ∨ ('0' ≤ upperChar a ∧ upperChar a ≤ '9')
        ∨ upperChar a = '-' ∨ upperChar a = '_' := by decide
    intro c hc
    have hc' : c ∈ (nanoidOfBytes bytes).data.map upperChar := hc
    rcases List.mem_map.mp hc' with ⟨a, ha, rfl⟩
    exact hmaster a (nanoid_chars_mem bytes a ha)

/-- C8 witness: the bytes 0..5 generate the 6-character code `"DNAESU"`,
whose characters are all uppercase letters. -/
theorem c8_code_shape_witness :
    generatedRoomCode [0, 1, 2, 3, 4, 5] = "DNAESU"
    ∧ (generatedRoomCode [0, 1, 2, 3, 4, 5]).length = 6 := by
  refine ⟨by decide, ?_⟩
  exact (c8_code_shape [0, 1, 2, 3, 4, 5] (by decide)).1

theorem upperChar_idem_on_alphabet :
    ∀ a ∈ urlAlphabet, upperChar (upperChar a) = upperChar a := by
  decide

theorem toUpperCase_generated (bytes : List Nat) :
    toUpperCase (generatedRoomCode bytes) = generatedRoomCode bytes := by
  unfold generatedRoomCode toUpperCase
  refine congrArg String.mk ?_
  show ((nanoidOfBytes bytes).data.map upperChar).map upperChar
    = (nanoidOfBytes bytes).data.map upperChar
  rw [List.map_map]
  exact List.map_congr_left fun a ha =>
    upperChar_idem_on_alphabet a (nanoid_chars_mem bytes a ha)

/-- C7: room codes are case-insensitive at the join boundary: joining with
any entered code that agrees with a generated (stored) code up to letter
case behaves exactly like joining with the stored code itself — generated
codes are already uppercase, and `joinRoom` uppercases the entered code
before matching, so the same row is targeted. -/
theorem c7_join_case_insensitive (bytes : List Nat) (entered gid : String)
    (store : List RoomRow) (og : Option OnlineGameState)
    (hlen : bytes.length = 6)
    (hcase : toUpperCase entered = toUpperCase (generatedRoomCode bytes)) :
    joinRoom store entered gid og
      = joinRoom store (generatedRoomCode bytes) gid og := by
  have hfix := toUpperCase_generated bytes
  have hup : toUpperCase entered = generatedRoomCode bytes := by rw [hcase, hfix]
  have hslen : (generatedRoomCode bytes).length = 6 := by
    rw [generatedRoomCode_length bytes, hlen]
  have hst_ne : generatedRoomCode bytes ≠ "" := by
    intro h0
    rw [h0] at hslen
    exact absurd hslen (by decide)
  have hent_ne : entered ≠ "" := by
    intro h0
    rw [h0] at hup
    exact hst_ne (by rw [← hup]; rfl)
  unfold joinRoom joinRoomStore
  rw [if_neg hent_ne, if_neg hst_ne, hup, hfix]

/-- C7 witness: the generated code `"DNAESU"` can be joined with the
lowercase entry `"dnaesu"`; the two joins are indistinguishable. -/
theorem c7_join_case_insensitive_witness :
    generatedRoomCode [0, 1, 2, 3, 4, 5] = "DNAESU"
    ∧ joinRoom [createRow initState "DNAESU" "host-1"] "dnaesu" "guest-1" none
      = joinRoom [createRow initState "DNAESU" "host-1"]
          (generatedRoomCode [0, 1, 2, 3, 4, 5]) "guest-1" none := by
  refine ⟨by decide, ?_⟩
  exact c7_join_case_insensitive [0, 1, 2, 3, 4, 5] "dnaesu" "guest-1"
    [createRow initState "DNAESU" "host-1"] none (by decide) (by decide)

end TTT
